/-
Verification of the drizzle-graphql core: a shallow embedding of the
column-to-GraphQL type mapper (`src/util/type-converter`, shipped in this
repository inside `test-server/schema.ts`'s bundled source) and of the
selection resolver described by the design document.

JavaScript runtime aspects are made explicit:
  * object identity (needed by the `WeakMap` enum cache) is modelled by a
    `refId : Nat` field on column descriptors and an `allocId : Nat` stamped
    on every freshly constructed `GraphQLEnumType`;
  * the process-wide mutable `enumMap` cache is threaded as explicit state
    (`GqlState`), with `new` allocations drawing fresh ids from a counter;
  * `Object.fromEntries` keeps the first-insertion position of a key and the
    last assigned value (JavaScript property-assignment semantics);
  * exceptions (`throw` / `try ... catch`) become `Except` / `Option`.
-/
import Mathlib

/-- Modelled from the spec: `capitalize` (imported by the type converter from
`case-ops`, a module whose source is not included here) upper-cases the first
character of a name, per the spec's "capitalized table name then capitalized
column name". -/
def capitalize (s : String) : String :=
  match s.data with
  | [] => ""
  | c :: cs => String.mk (c.toUpper :: cs)

/-- The regular expression `/^[a-zA-Z0-9_]+$/` from the type converter:
a non-empty string all of whose characters are ASCII letters, digits or
underscore. -/
def allowedNameCharsTest (s : String) : Bool :=
  !s.data.isEmpty && s.data.all (fun c => c.isAlpha || c.isDigit || c == '_')

/-- Test whether `pat` is an initial run of `s`. -/
def listStartsWith : List Char → List Char → Bool
  | _, [] => true
  | [], _ :: _ => false
  | c :: cs, p :: ps => c == p && listStartsWith cs ps

/-- Test whether `pat` occurs contiguously in `s`. -/
def listHasSub : List Char → List Char → Bool
  | [], pat => listStartsWith [] pat
  | s@(_ :: cs), pat => listStartsWith s pat || listHasSub cs pat

/-- JavaScript `String.prototype.includes` (a platform primitive, modelled
over the character list). -/
def jsIncludes (s sub : String) : Bool :=
  listHasSub s.data sub.data

/-- JavaScript `String.prototype.endsWith` (a platform primitive, modelled
over the character list). -/
def jsEndsWith (s suf : String) : Bool :=
  listStartsWith s.data.reverse suf.data.reverse

/-- JavaScript `String.prototype.toLowerCase` (a platform primitive,
modelled over the character list). -/
def jsToLower (s : String) : String :=
  String.mk (s.data.map Char.toLower)

/-- The `arrayIndicators` list of `isLikelyArrayColumn`. -/
def arrayIndicators : List String :=
  ["urls", "ids", "tags", "items", "values", "entries", "list",
   "array", "collection", "set", "group", "batch"]

/-- The `isLikelyArrayColumn` name-based heuristic deciding whether a
JSON-stored text column is treated as an array of strings. -/
def isLikelyArrayColumn (columnName : String) : Bool :=
  let lowerName := jsToLower columnName
  arrayIndicators.any (fun indicator =>
    jsIncludes lowerName indicator || jsEndsWith lowerName "s")

/-- One value of a generated `GraphQLEnumType`: the underlying literal and its
`Value: <literal>` description. -/
structure EnumValue where
  value : String
  description : String
deriving DecidableEq, Repr

/-- A constructed `GraphQLEnumType` object.  `allocId` models JavaScript
object identity: two enum objects are "the same instance" exactly when their
`allocId`s agree. -/
structure EnumTypeObj where
  allocId : Nat
  name : String
  values : List (String × EnumValue)
deriving DecidableEq, Repr

/-- The GraphQL output/input types the converter can produce. -/
inductive GqlType where
  | boolean
  | int
  | float
  | string
  | enumT (e : EnumTypeObj)
  | jsonScalar
  | geoObj
  | geoInput
  | list (ofType : GqlType)
  | nonNull (ofType : GqlType)
deriving DecidableEq, Repr

/-- The `ConvertedColumn` record `{ type, description? }` returned by the
converter. -/
structure ConvertedColumn where
  type : GqlType
  description : Option String
deriving DecidableEq, Repr

/-- A drizzle column descriptor, as read by the type converter.  `refId`
models the JavaScript object identity used as the `WeakMap` key; `dataType`
and `columnType` are the strings drizzle stores on the column; `defaultFn`
is the truthiness of `column.defaultFn`; `baseColumn` is the element column
of a Postgres array column. -/
inductive Column where
  | mk (refId : Nat) (dataType : String) (columnType : String)
      (enumValues : Option (List String)) (notNull : Bool)
      (hasDefault : Bool) (defaultFn : Bool) (baseColumn : Option Column)

def Column.refId : Column → Nat
  | .mk r _ _ _ _ _ _ _ => r

def Column.dataType : Column → String
  | .mk _ d _ _ _ _ _ _ => d

def Column.columnType : Column → String
  | .mk _ _ c _ _ _ _ _ => c

def Column.enumValues : Column → Option (List String)
  | .mk _ _ _ e _ _ _ _ => e

def Column.notNull : Column → Bool
  | .mk _ _ _ _ n _ _ _ => n

def Column.hasDefault : Column → Bool
  | .mk _ _ _ _ _ h _ _ => h

def Column.defaultFn : Column → Bool
  | .mk _ _ _ _ _ _ f _ => f

def Column.baseColumn : Column → Option Column
  | .mk _ _ _ _ _ _ _ b => b

/-- The process-wide mutable state of the converter: the `WeakMap` enum cache
(keyed by column object identity) and the allocation counter that stamps
fresh enum objects. -/
structure GqlState where
  enumMap : List (Nat × EnumTypeObj)
  nextAlloc : Nat
deriving DecidableEq, Repr

/-- Map `f` over `l` with indices starting at `k`. -/
def mapIdxFrom (f : Nat → α → β) : Nat → List α → List β
  | _, [] => []
  | k, a :: as => f k a :: mapIdxFrom f (k + 1) as

/-- JavaScript `Array.prototype.map((e, index) => ...)`. -/
def jsMapIdx (f : Nat → α → β) (l : List α) : List β :=
  mapIdxFrom f 0 l

/-- One property assignment on a JavaScript object: overwrite the value of an
existing key in place, otherwise append the pair. -/
def jsSetKey (acc : List (String × α)) (p : String × α) : List (String × α) :=
  if acc.any (fun q => q.1 == p.1) then
    acc.map (fun q => if q.1 == p.1 then (q.1, p.2) else q)
  else
    acc ++ [p]

/-- JavaScript `Object.fromEntries`: first-insertion key order, last
assignment wins. -/
def fromEntries (l : List (String × α)) : List (String × α) :=
  l.foldl jsSetKey []

/-- Property lookup on a JavaScript object modelled as an entry list. -/
def lookupVal (l : List (String × α)) (k : String) : Option α :=
  (l.find? (fun p => p.1 == k)).map (fun p => p.2)

/-- The `WeakMap.get` lookup on the enum cache. -/
def lookupEnum (m : List (Nat × EnumTypeObj)) (k : Nat) : Option EnumTypeObj :=
  (m.find? (fun p => p.1 == k)).map (fun p => p.2)

/-- The entry list `column.enumValues!.map((e, index) => [name, {value, description}])`
built by `generateEnumCached` before `Object.fromEntries` deduplicates it. -/
def enumEntriesOf (es : List String) : List (String × EnumValue) :=
  jsMapIdx (fun index e =>
    (if allowedNameCharsTest e then e else "Option" ++ toString index,
     { value := e, description := "Value: " ++ e })) es

/-- The `generateEnumCached` factory: return the cached enum object for this column
object if present; otherwise construct a fresh `GraphQLEnumType` named
`<Table><Column>Enum`, store it under the column's identity and return it. -/
def generateEnumCached (st : GqlState) (column : Column)
    (columnName tableName : String) : GqlState × EnumTypeObj :=
  match lookupEnum st.enumMap column.refId with
  | some e => (st, e)
  | none =>
    let gqlEnum : EnumTypeObj :=
      { allocId := st.nextAlloc,
        name := capitalize tableName ++ capitalize columnName ++ "Enum",
        values := fromEntries (enumEntriesOf (column.enumValues.getD [])) }
    ({ enumMap := st.enumMap ++ [(column.refId, gqlEnum)],
       nextAlloc := st.nextAlloc + 1 }, gqlEnum)

/-- The drizzle column classes treated as integer-valued by the `number`
case (`is(column, PgInteger) || is(column, PgSerial) || is(column, MySqlInt)
|| is(column, MySqlSerial) || is(column, SQLiteInteger)`). -/
def intColumnTypes : List String :=
  ["PgInteger", "PgSerial", "MySqlInt", "MySqlSerial", "SQLiteInteger"]

/-- The `columnToGraphQLCore` converter: the `switch (column.dataType)` at the heart of the
type converter.  A thrown `Error` is an `.error`; the enum cache is threaded
through as state.  Reading `baseColumn` off a non-array column (a crash in
JavaScript) is an `.error` as well. -/
def columnToGraphQLCore :
    GqlState → Column → String → String → Bool →
    Except String (GqlState × ConvertedColumn)
  | st, col@(.mk _ dataType columnType enumValues _ _ _ baseColumn),
    columnName, tableName, isInput =>
    if dataType = "boolean" then
      .ok (st, ⟨.boolean, some "Boolean"⟩)
    else if dataType = "json" then
      if columnType = "PgGeometryObject" then
        .ok (st, ⟨if isInput then .geoInput else .geoObj, some "Geometry points XY"⟩)
      else if columnType = "SQLiteTextJson" then
        if isLikelyArrayColumn columnName then
          .ok (st, ⟨.list .string, some "Array of strings (JSON)"⟩)
        else
          .ok (st, ⟨.jsonScalar, some "JSON object"⟩)
      else
        .ok (st, ⟨.string, some "JSON"⟩)
    else if dataType = "date" then
      .ok (st, ⟨.string, some "Date"⟩)
    else if dataType = "string" then
      if (enumValues.getD []).isEmpty then
        .ok (st, ⟨.string, some "String"⟩)
      else
        let res := generateEnumCached st col columnName tableName
        .ok (res.1, ⟨.enumT res.2, none⟩)
    else if dataType = "bigint" then
      .ok (st, ⟨.string, some "BigInt"⟩)
    else if dataType = "number" then
      if intColumnTypes.contains columnType then
        .ok (st, ⟨.int, some "Integer"⟩)
      else
        .ok (st, ⟨.float, some "Float"⟩)
    else if dataType = "buffer" then
      .ok (st, ⟨.list (.nonNull .int), some "Buffer"⟩)
    else if dataType = "array" then
      if columnType = "PgVector" then
        .ok (st, ⟨.list (.nonNull .float), some "Array<Float>"⟩)
      else if columnType = "PgGeometry" then
        .ok (st, ⟨.list (.nonNull .float), some "Tuple<[Float, Float]>"⟩)
      else
        match baseColumn with
        | some base =>
          match columnToGraphQLCore st base columnName tableName isInput with
          | .error e => .error e
          | .ok (st', inner) =>
            .ok (st', ⟨.list (.nonNull inner.type),
              some ("Array<" ++ inner.description.getD "undefined" ++ ">")⟩)
        | none => .error "Drizzle-GraphQL Error: array column has no baseColumn"
    else
      .error ("Drizzle-GraphQL Error: Type " ++ dataType ++ " is not implemented!")

/-- Is the outermost constructor a `GraphQLNonNull` wrapper? -/
def isNonNullType : GqlType → Bool
  | .nonNull _ => true
  | _ => false

/-- The exported `drizzleColumnToGraphQLType`: runs the core converter, drops the
description of self-describing scalar kinds, and applies the nullability
rule (`forceNullable` / `notNull && !(defaultIsNullable && (hasDefault ||
defaultFn))`). -/
def drizzleColumnToGraphQLType (st : GqlState) (column : Column)
    (columnName tableName : String)
    (forceNullable defaultIsNullable isInput : Bool) :
    Except String (GqlState × ConvertedColumn) :=
  match columnToGraphQLCore st column columnName tableName isInput with
  | .error e => .error e
  | .ok (st', typeDesc0) =>
    let noDesc := ["string", "boolean", "number"]
    let typeDesc : ConvertedColumn :=
      if (noDesc.find? (fun e => e == column.dataType)).isSome then
        ⟨typeDesc0.type, none⟩
      else typeDesc0
    if forceNullable then .ok (st', typeDesc)
    else if column.notNull && !(defaultIsNullable && (column.hasDefault || column.defaultFn)) then
      .ok (st', ⟨.nonNull typeDesc.type, typeDesc.description⟩)
    else
      .ok (st', typeDesc)

/-- A JavaScript value as seen by the `GraphQLJSON` scalar.  `vnull`, `varr`
and `vobj` are the values whose `typeof` is `'object'`. -/
inductive JsValue where
  | vnull
  | vbool (b : Bool)
  | vnum (n : Int)
  | vstr (s : String)
  | varr (elems : List JsValue)
  | vobj (fields : List (String × JsValue))

/-- The `serialize` method of the `GraphQLJSON` scalar.  `JSON.parse` is a
platform primitive, modelled as an abstract `jsonParse` parameter returning
`none` exactly when it would throw (the `try ... catch` around it).  The
result is `Except` so that a `throw` escaping `serialize` would be visible as
`.error`; the source catches every parse failure, so every branch is `.ok`. -/
def jsonScalarSerialize (jsonParse : String → Option JsValue) :
    JsValue → Except String JsValue
  | .vnull => .ok .vnull
  | .varr elems => .ok (.varr elems)
  | .vobj fields => .ok (.vobj fields)
  | .vstr s =>
    match jsonParse s with
    | some parsed => .ok parsed
    | none => .ok (.vstr s)
  | other => .ok other

/-- A selection-tree node handed to the resolver by the query engine.
Modelled from the spec: the resolver's own source is not included in the
repository snapshot (only the design document describes it), so the two
shapes of §4.3 are embedded directly — a flat field-name keyed mapping, or a
type-name keyed mapping of flat mappings (the fragment-indirected shape).
Each field carries its own sub-selection node, recorded for relations. -/
inductive SelectionNode where
  | flat (fields : List (String × SelectionNode))
  | keyed (groups : List (String × List (String × SelectionNode)))

/-- The `{columns, relations}` result of the selection resolver.  `columns`
is a set of column names kept as a first-occurrence-ordered list; `relations`
maps relation field names to their sub-selection nodes. -/
structure ExtractResult where
  columns : List String
  relations : List (String × SelectionNode)

/-- Modelled from the spec: classify a flat field mapping against the
table's known column names and relation field names (§4.3 steps 1 and 4) —
a known column name joins the column set, a known relation name records its
sub-selection, anything else is silently ignored; duplicates are not added
twice. -/
def classifyFields (cols rels : List String) (acc : ExtractResult)
    (fields : List (String × SelectionNode)) : ExtractResult :=
  fields.foldl (fun acc p =>
    if cols.contains p.1 then
      if acc.columns.contains p.1 then acc
      else { columns := acc.columns ++ [p.1], relations := acc.relations }
    else if rels.contains p.1 then
      if acc.relations.any (fun q => q.1 == p.1) then acc
      else { columns := acc.columns, relations := acc.relations ++ [p] }
    else acc) acc

/-- Modelled from the spec: `extractColumns(selectionNode, tableInterfaceName)`
(§4.3).  `implementers` is the set of type names denoting the table's own
interface and the concrete types that implement it; on the fragment-indirected
shape every group keyed by one of these names is merged into the accumulator,
groups keyed by unrelated type names are ignored (§4.3 step 2). -/
def extractColumns (cols rels implementers : List String)
    (node : SelectionNode) : ExtractResult :=
  match node with
  | .flat fields => classifyFields cols rels ⟨[], []⟩ fields
  | .keyed groups =>
    groups.foldl (fun acc g =>
      if implementers.contains g.1 then classifyFields cols rels acc g.2
      else acc) ⟨[], []⟩

theorem keyOf_overwrite_eq (p : String × α) (k : String) :
    ((fun q : String × α => q.1 == k) ∘
      (fun q => if q.1 == p.1 then (q.1, p.2) else q)) = fun q => q.1 == k := by
  funext q
  by_cases h : (q.1 == p.1) = true
  · have h' : q.1 = p.1 := by simpa using h
    simp [h, h']
  · have h' : ¬ q.1 = p.1 := by simpa using h
    simp [h, h']

theorem lookupVal_jsSetKey_self (acc : List (String × α)) (p : String × α) :
    lookupVal (jsSetKey acc p) p.1 = some p.2 := by
  unfold jsSetKey lookupVal
  split
  · rename_i hany
    rw [List.find?_map, keyOf_overwrite_eq]
    obtain ⟨q, hq, hq1⟩ := List.any_eq_true.mp hany
    have hsome : (acc.find? (fun q => q.1 == p.1)).isSome :=
      List.find?_isSome.mpr ⟨q, hq, hq1⟩
    obtain ⟨q0, hq0⟩ := Option.isSome_iff_exists.mp hsome
    have hq01 := List.find?_some hq0
    have hq01' : q0.1 = p.1 := by simpa using hq01
    rw [hq0]
    simp [hq01, hq01']
  · rename_i hany
    rw [List.find?_append]
    have hnone : acc.find? (fun q => q.1 == p.1) = none :=
      List.find?_eq_none.mpr (fun x hx hc => hany (List.any_eq_true.mpr ⟨x, hx, hc⟩))
    simp [hnone, List.find?]

theorem lookupVal_jsSetKey_ne (acc : List (String × α)) (p : String × α)
    (k : String) (hk : ¬ k = p.1) :
    lookupVal (jsSetKey acc p) k = lookupVal acc k := by
  unfold jsSetKey lookupVal
  split
  · rw [List.find?_map, keyOf_overwrite_eq]
    cases hfind : acc.find? (fun q => q.1 == k) with
    | none => simp
    | some q0 =>
      have h1 : q0.1 = k := by simpa using List.find?_some hfind
      have h2 : ¬ q0.1 = p.1 := by
        rw [h1]
        exact hk
      simp [h2]
  · rw [List.find?_append]
    have hpk : (p.1 == k) = false := by
      simpa using fun h => hk h.symm
    have hone : List.find? (fun q => q.1 == k) [p] = none := by
      simp [List.find?, hpk]
    cases hacc : acc.find? (fun q => q.1 == k) <;> simp [hone, hacc]

theorem lookupVal_foldl_jsSetKey (l : List (String × α)) (acc : List (String × α))
    (k : String) :
    lookupVal (l.foldl jsSetKey acc) k =
      (match l.reverse.find? (fun p => p.1 == k) with
       | some p => some p.2
       | none => lookupVal acc k) := by
  induction l generalizing acc with
  | nil => simp only [List.foldl_nil, List.reverse_nil, List.find?_nil]
  | cons p rest ih =>
    simp only [List.foldl_cons, List.reverse_cons, List.find?_append]
    rw [ih]
    cases hrest : rest.reverse.find? (fun p => p.1 == k) with
    | some q => simp
    | none =>
      simp only [Option.none_or]
      by_cases hpk : (p.1 == k) = true
      · have hk : k = p.1 := (show p.1 = k by simpa using hpk).symm
        subst hk
        rw [lookupVal_jsSetKey_self]
        simp [List.find?, hpk]
      · have hk : ¬ k = p.1 := by
          intro h
          exact hpk (by simp [h])
        rw [lookupVal_jsSetKey_ne acc p k hk]
        simp [List.find?, show (p.1 == k) = false by simpa using hpk]

/-- JavaScript `Object.fromEntries` resolves duplicate keys deterministically: the value
stored under a key is the value of the LAST entry carrying that key. -/
theorem lookupVal_fromEntries (l : List (String × α)) (k : String) :
    lookupVal (fromEntries l) k =
      (l.reverse.find? (fun p => p.1 == k)).map (fun p => p.2) := by
  unfold fromEntries
  rw [lookupVal_foldl_jsSetKey]
  cases h : l.reverse.find? (fun p => p.1 == k) <;> simp [lookupVal]

theorem lookupEnum_append_self (m : List (Nat × EnumTypeObj)) (r : Nat)
    (e : EnumTypeObj) (h : lookupEnum m r = none) :
    lookupEnum (m ++ [(r, e)]) r = some e := by
  unfold lookupEnum at h ⊢
  rw [List.find?_append]
  cases hm : m.find? (fun p => p.1 == r) with
  | none => simp [List.find?]
  | some q => rw [hm] at h; simp at h

theorem lookupEnum_append_ne (m : List (Nat × EnumTypeObj)) (r r' : Nat)
    (e : EnumTypeObj) (h : ¬ r' = r) :
    lookupEnum (m ++ [(r, e)]) r' = lookupEnum m r' := by
  unfold lookupEnum
  rw [List.find?_append]
  have hone : List.find? (fun p => p.1 == r') [(r, e)] = none := by
    simp [List.find?, show (r == r') = false by simpa using fun hc => h hc.symm]
  cases hm : m.find? (fun p => p.1 == r') <;> simp [hone, hm]

theorem mapIdxFrom_getElem? (f : Nat → α → β) (l : List α) (k i : Nat) :
    (mapIdxFrom f k l)[i]? = (l[i]?).map (f (k + i)) := by
  induction l generalizing k i with
  | nil => simp [mapIdxFrom]
  | cons a as ih =>
    cases i with
    | zero => simp [mapIdxFrom]
    | succ j =>
      simp only [mapIdxFrom, List.getElem?_cons_succ]
      rw [ih (k + 1) j]
      have hadd : k + 1 + j = k + (j + 1) := by omega
      rw [hadd]

theorem jsMapIdx_getElem? (f : Nat → α → β) (l : List α) (i : Nat) :
    (jsMapIdx f l)[i]? = (l[i]?).map (f i) := by
  unfold jsMapIdx
  rw [mapIdxFrom_getElem?]
  simp

/-- A successful converter result carries no outermost `GraphQLNonNull`. -/
def okNotNonNull : Except String (GqlState × ConvertedColumn) → Prop
  | .ok pr => isNonNullType pr.2.type = false
  | .error _ => True

theorem okNotNonNull_ite {c : Prop} [Decidable c]
    {a b : Except String (GqlState × ConvertedColumn)}
    (ha : okNotNonNull a) (hb : okNotNonNull b) :
    okNotNonNull (if c then a else b) := by
  split <;> assumption

theorem core_okNotNonNull (st : GqlState) (col : Column) (cn tn : String)
    (inp : Bool) : okNotNonNull (columnToGraphQLCore st col cn tn inp) := by
  cases col with
  | mk r dt ct ev nn hd df bc =>
    unfold columnToGraphQLCore
    repeat' apply okNotNonNull_ite
    all_goals (first
      | exact trivial
      | exact rfl
      | (cases inp <;> exact rfl)
      | skip)
    cases bc with
    | none => exact trivial
    | some base =>
      split
      all_goals (try (first | exact trivial | exact rfl))
      all_goals split
      all_goals (first | exact trivial | exact rfl)

/-- The core converter never returns a type whose outermost wrapper is
`GraphQLNonNull`: the non-null wrapper is applied only by
`drizzleColumnToGraphQLType`'s nullability rule. -/
theorem core_type_not_nonNull (st : GqlState) (col : Column) (cn tn : String)
    (inp : Bool) (st' : GqlState) (td : ConvertedColumn)
    (h : columnToGraphQLCore st col cn tn inp = .ok (st', td)) :
    isNonNullType td.type = false := by
  have hall := core_okNotNonNull st col cn tn inp
  rw [h] at hall
  exact hall

theorem classifyFields_append (cols rels : List String) (acc : ExtractResult)
    (fs1 fs2 : List (String × SelectionNode)) :
    classifyFields cols rels acc (fs1 ++ fs2)
      = classifyFields cols rels (classifyFields cols rels acc fs1) fs2 := by
  unfold classifyFields
  rw [List.foldl_append]

theorem extract_keyed_foldl (cols rels impls : List String)
    (groups : List (String × List (String × SelectionNode)))
    (acc : ExtractResult)
    (h : ∀ g ∈ groups, impls.contains g.1 = true) :
    groups.foldl (fun acc g =>
        if impls.contains g.1 then classifyFields cols rels acc g.2 else acc) acc
      = classifyFields cols rels acc ((groups.map Prod.snd).flatten) := by
  induction groups generalizing acc with
  | nil => simp [classifyFields]
  | cons g gs ih =>
    have hg : impls.contains g.1 = true := h g (by simp)
    simp only [List.foldl_cons, List.map_cons]
    rw [if_pos hg, ih (classifyFields cols rels acc g.2) (fun g' hg' => h g' (by simp [hg'])),
      List.flatten_cons, classifyFields_append]

/-- The empty converter state: no enum cached yet, allocation counter at 0. -/
def st0 : GqlState := ⟨[], 0⟩

/-- The `user.name` column: a plain not-null text column with no default. -/
def userNameColumn : Column := .mk 1 "string" "SQLiteText" none true false false none

/-- The `reaction.type` column: a not-null text column with the enum values of
`ReactionTypes`. -/
def reactionTypeColumn : Column :=
  .mk 2 "string" "SQLiteText" (some ["LIKE", "DISLIKE"]) true false false none

/-- A second, distinct column object carrying the same names and enum values
as `reactionTypeColumn` (a rebuilt descriptor for the same table column). -/
def reactionTypeColumnB : Column :=
  .mk 10 "string" "SQLiteText" (some ["LIKE", "DISLIKE"]) true false false none

/-- The `test_table.tags` column: SQLite text in JSON mode. -/
def tagsColumn : Column := .mk 3 "json" "SQLiteTextJson" none false false false none

/-- The `test_table.config` column: SQLite text in JSON mode. -/
def configColumn : Column := .mk 4 "json" "SQLiteTextJson" none false false false none

/-- A native Postgres JSON column (dataType json, not serialized-text). -/
def pgJsonColumn : Column := .mk 5 "json" "PgJson" none false false false none

/-- A `customType` column: `dataType = 'custom'` has no switch case. -/
def customColumn : Column := .mk 6 "custom" "PgCustomColumn" none false false false none

/-- An enum column whose literal value `Option1` collides with the
positional placeholder of the invalid literal `!` at index 1. -/
def collisionColumn : Column :=
  .mk 7 "string" "SQLiteText" (some ["Option1", "!"]) true false false none

/-- An enum column with the empty string as a literal value. -/
def emptyEnumColumn : Column :=
  .mk 8 "string" "SQLiteText" (some [""]) true false false none

/-- The `user.id` column: not-null with a `$defaultFn` (ulid generator). -/
def userIdColumn : Column := .mk 9 "string" "SQLiteText" none true false true none

/-- An enum column with a literal containing a dash. -/
def statusColumn : Column :=
  .mk 11 "string" "SQLiteText" (some ["active", "in-progress"]) true false false none

/-- C1: for every well-formed client selection expressing the same intent,
`extractColumns` returns identical `{columns, relations}` results whether the
intent is expressed as direct field selections, as one or more interface
fragments, or as a mix of fragments and direct fields: a fragment-indirected
node all of whose type keys denote implementers of the table's interface
resolves exactly like the flat node listing the same fields in the same
order (the query engine places direct fields of a mixed selection under the
concrete type's key, so the mixed case is the multi-group case). -/
theorem extractColumns_fragment_direct_equiv (cols rels impls : List String)
    (groups : List (String × List (String × SelectionNode)))
    (h : ∀ g ∈ groups, impls.contains g.1 = true) :
    extractColumns cols rels impls (.keyed groups)
      = extractColumns cols rels impls (.flat ((groups.map Prod.snd).flatten)) := by
  unfold extractColumns
  exact extract_keyed_foldl cols rels impls groups ⟨[], []⟩ h

/-- Witness for C1, the spec's own scenario: `{ ...on UserFields { id name }
bio }` on a `UserSelectItem`-typed field resolves exactly like the direct
selection `{ id name bio }`. -/
theorem extractColumns_fragment_direct_equiv_witness :
    extractColumns ["id", "name", "email", "bio"] ["posts", "comments", "profile"]
      ["UserFields", "UserSelectItem", "UserItem"]
      (.keyed [("UserFields", [("id", .flat []), ("name", .flat [])]),
               ("UserSelectItem", [("bio", .flat [])])])
    = extractColumns ["id", "name", "email", "bio"] ["posts", "comments", "profile"]
      ["UserFields", "UserSelectItem", "UserItem"]
      (.flat [("id", .flat []), ("name", .flat []), ("bio", .flat [])]) := by
  have h := extractColumns_fragment_direct_equiv
    ["id", "name", "email", "bio"] ["posts", "comments", "profile"]
    ["UserFields", "UserSelectItem", "UserItem"]
    [("UserFields", [("id", .flat []), ("name", .flat [])]),
     ("UserSelectItem", [("bio", .flat [])])]
    (by simp)
  simpa using h

/-- C7: a column whose `dataType` has no mapping rule in the switch (the
`custom` kind, and any unrecognized kind) makes the converter throw the
unsupported-type error — no fallback type is returned — and the error
propagates out of `drizzleColumnToGraphQLType`, aborting schema synthesis. -/
theorem unsupported_kind_errors (st : GqlState) (col : Column) (cn tn : String)
    (fN dIN inp : Bool)
    (h : col.dataType ∉
      ["boolean", "json", "date", "string", "bigint", "number", "buffer", "array"]) :
    columnToGraphQLCore st col cn tn inp
        = .error ("Drizzle-GraphQL Error: Type " ++ col.dataType ++ " is not implemented!")
    ∧ drizzleColumnToGraphQLType st col cn tn fN dIN inp
        = .error ("Drizzle-GraphQL Error: Type " ++ col.dataType ++ " is not implemented!") := by
  cases col with
  | mk r dt ct ev nn hd df bc =>
    simp only [Column.dataType] at h ⊢
    simp only [List.mem_cons, List.not_mem_nil, or_false, not_or] at h
    obtain ⟨h1, h2, h3, h4, h5, h6, h7, h8⟩ := h
    have hcore : columnToGraphQLCore st (Column.mk r dt ct ev nn hd df bc) cn tn inp
        = .error ("Drizzle-GraphQL Error: Type " ++ dt ++ " is not implemented!") := by
      unfold columnToGraphQLCore
      rw [if_neg h1, if_neg h2, if_neg h3, if_neg h4, if_neg h5, if_neg h6,
        if_neg h7, if_neg h8]
    refine ⟨hcore, ?_⟩
    unfold drizzleColumnToGraphQLType
    rw [hcore]

/-- Witness for C7: a `customType` column aborts both converter layers with
the unsupported-type error. -/
theorem unsupported_kind_errors_witness :
    columnToGraphQLCore st0 customColumn "custom" "user" false
        = .error ("Drizzle-GraphQL Error: Type " ++ customColumn.dataType ++ " is not implemented!")
    ∧ drizzleColumnToGraphQLType st0 customColumn "custom" "user" false false false
        = .error ("Drizzle-GraphQL Error: Type " ++ customColumn.dataType ++ " is not implemented!") :=
  unsupported_kind_errors st0 customColumn "custom" "user" false false false (by decide)

/-- C9: a json-kind column that is neither a geometry-point column nor a
SQLite serialized-text JSON column maps to the plain String scalar with
description `JSON` — not the generic JSON scalar and not a list — whatever
the column's name is. -/
theorem native_json_plain_string (st : GqlState) (col : Column) (cn tn : String)
    (inp : Bool) (hjson : col.dataType = "json")
    (hgeo : ¬ col.columnType = "PgGeometryObject")
    (hsq : ¬ col.columnType = "SQLiteTextJson") :
    columnToGraphQLCore st col cn tn inp = .ok (st, ⟨.string, some "JSON"⟩) := by
  cases col with
  | mk r dt ct ev nn hd df bc =>
    simp only [Column.dataType] at hjson
    simp only [Column.columnType] at hgeo hsq
    subst hjson
    unfold columnToGraphQLCore
    rw [if_neg (by decide), if_pos rfl, if_neg hgeo, if_neg hsq]

/-- Witness for C9: a native Postgres JSON column named `tags` (a name the
array heuristic would match) still maps to the plain String scalar. -/
theorem native_json_plain_string_witness :
    columnToGraphQLCore st0 pgJsonColumn "tags" "post" false
      = .ok (st0, ⟨.string, some "JSON"⟩) :=
  native_json_plain_string st0 pgJsonColumn "tags" "post" false rfl
    (by decide) (by decide)

/-- C4: a SQLite serialized-text JSON column maps to a list of strings
exactly when `isLikelyArrayColumn` accepts its name, and to the generic JSON
scalar otherwise; and `isLikelyArrayColumn` accepts a name exactly when its
lower-cased form ends in `s` or contains one of the collection tokens. -/
theorem sqlite_json_array_heuristic (st : GqlState) (col : Column)
    (cn tn : String) (inp : Bool) (hjson : col.dataType = "json")
    (hct : col.columnType = "SQLiteTextJson") :
    columnToGraphQLCore st col cn tn inp
      = .ok (st, if isLikelyArrayColumn cn then
            ⟨.list .string, some "Array of strings (JSON)"⟩
          else ⟨.jsonScalar, some "JSON object"⟩)
    ∧ (isLikelyArrayColumn cn = true
        ↔ (jsEndsWith (jsToLower cn) "s" = true
            ∨ ∃ t ∈ arrayIndicators, jsIncludes (jsToLower cn) t = true)) := by
  constructor
  · cases col with
    | mk r dt ct ev nn hd df bc =>
      simp only [Column.dataType] at hjson
      simp only [Column.columnType] at hct
      subst hjson
      subst hct
      unfold columnToGraphQLCore
      rw [if_neg (by decide), if_pos rfl, if_neg (by decide), if_pos rfl]
      by_cases harr : isLikelyArrayColumn cn = true
      · rw [if_pos harr, if_pos harr]
      · rw [if_neg harr, if_neg harr]
  · simp only [isLikelyArrayColumn, List.any_eq_true, Bool.or_eq_true]
    constructor
    · rintro ⟨t, ht, hi | hs⟩
      · exact Or.inr ⟨t, ht, hi⟩
      · exact Or.inl hs
    · rintro (hs | ⟨t, ht, hi⟩)
      · exact ⟨"urls", by simp [arrayIndicators], Or.inr hs⟩
      · exact ⟨t, ht, Or.inl hi⟩

/-- Witness for C4: the `tags` column resolves to a list of strings, the
`config` column to the generic JSON scalar. -/
theorem sqlite_json_array_heuristic_witness :
    columnToGraphQLCore st0 tagsColumn "tags" "test_table" false
        = .ok (st0, ⟨.list .string, some "Array of strings (JSON)"⟩)
    ∧ columnToGraphQLCore st0 configColumn "config" "test_table" false
        = .ok (st0, ⟨.jsonScalar, some "JSON object"⟩) := by
  constructor
  · have h := (sqlite_json_array_heuristic st0 tagsColumn "tags" "test_table" false
      rfl rfl).1
    rw [h]
    rfl
  · have h := (sqlite_json_array_heuristic st0 configColumn "config" "test_table" false
      rfl rfl).1
    rw [h]
    rfl

/-- C2: with `forceNullable = true` the converter returns the core type with
no non-null wrapper; with `forceNullable = false` the result is wrapped in
`GraphQLNonNull` exactly when the column is declared not-null AND
(`defaultIsNullable` is false OR the column has neither a stored default nor
a default-generating function). -/
theorem drizzle_nullability (st : GqlState) (col : Column) (cn tn : String)
    (dIN inp : Bool) (st' : GqlState) (td : ConvertedColumn)
    (hcore : columnToGraphQLCore st col cn tn inp = .ok (st', td)) :
    (∃ d, drizzleColumnToGraphQLType st col cn tn true dIN inp
        = .ok (st', ⟨td.type, d⟩))
    ∧ (∀ st'' r, drizzleColumnToGraphQLType st col cn tn false dIN inp
          = .ok (st'', r) →
        (isNonNullType r.type = true
          ↔ (col.notNull = true
              ∧ (dIN = false
                  ∨ (col.hasDefault = false ∧ col.defaultFn = false))))) := by
  have hnn := core_type_not_nonNull st col cn tn inp st' td hcore
  unfold drizzleColumnToGraphQLType
  rw [hcore]
  constructor
  · by_cases hdesc :
      (List.find? (fun e => e == col.dataType) ["string", "boolean", "number"]).isSome
    · refine ⟨none, ?_⟩
      simp [hdesc]
    · refine ⟨td.description, ?_⟩
      simp [hdesc]
  · have hbool : (col.notNull && !(dIN && (col.hasDefault || col.defaultFn))) = true
        ↔ (col.notNull = true
            ∧ (dIN = false ∨ (col.hasDefault = false ∧ col.defaultFn = false))) := by
      cases hN : col.notNull <;> cases dIN <;> cases hD : col.hasDefault <;>
        cases hF : col.defaultFn <;> simp
    intro st'' r hr
    simp only [Bool.false_eq_true, if_false] at hr
    by_cases hdesc :
      (List.find? (fun e => e == col.dataType) ["string", "boolean", "number"]).isSome
    all_goals simp only [hdesc, if_true, if_false] at hr
    all_goals
      cases hcond : (col.notNull && !(dIN && (col.hasDefault || col.defaultFn))) <;>
      rw [hcond] at hr <;>
      simp only [if_pos, if_neg, Bool.true_eq_false, Bool.false_eq_true, if_true,
        if_false, ite_true, ite_false] at hr <;>
      rw [Except.ok.injEq, Prod.mk.injEq] at hr <;>
      obtain ⟨hst, hrr⟩ := hr <;>
      subst hrr
    case pos.false.intro =>
      dsimp only
      rw [hnn]
      constructor
      · intro hc
        cases hc
      · intro hR
        rw [hbool.mpr hR] at hcond
        cases hcond
    case pos.true.intro =>
      simp only [isNonNullType, true_iff]
      exact hbool.mp hcond
    case neg.false.intro =>
      rw [hnn]
      constructor
      · intro hc
        cases hc
      · intro hR
        rw [hbool.mpr hR] at hcond
        cases hcond
    case neg.true.intro =>
      simp only [isNonNullType, true_iff]
      exact hbool.mp hcond

/-- Witness for C2: `user.name` (not-null, no default) maps to a non-null
type with `forceNullable = false`; `user.id` (not-null, `$defaultFn` default)
maps to a nullable type when `defaultIsNullable = true`. -/
theorem drizzle_nullability_witness :
    isNonNullType GqlType.string.nonNull = true
    ∧ isNonNullType GqlType.string ≠ true := by
  constructor
  · have h := (drizzle_nullability st0 userNameColumn "name" "user" false false st0
      ⟨GqlType.string, some "String"⟩ rfl).2 st0 ⟨GqlType.string.nonNull, none⟩ rfl
    exact h.mpr (by decide)
  · have h := (drizzle_nullability st0 userIdColumn "id" "user" true false st0
      ⟨GqlType.string, some "String"⟩ rfl).2 st0 ⟨GqlType.string, none⟩ rfl
    intro hc
    have hR := h.mp hc
    revert hR
    decide

theorem lookupEnum_after_generate (st : GqlState) (col : Column) (cn tn : String) :
    lookupEnum (generateEnumCached st col cn tn).1.enumMap col.refId
      = some (generateEnumCached st col cn tn).2 := by
  unfold generateEnumCached
  cases hlk : lookupEnum st.enumMap col.refId with
  | some e => simp [hlk]
  | none =>
    simp only [hlk]
    exact lookupEnum_append_self st.enumMap col.refId _ hlk

theorem generateEnumCached_idem (st : GqlState) (col : Column) (cn tn : String) :
    generateEnumCached (generateEnumCached st col cn tn).1 col cn tn
      = generateEnumCached st col cn tn := by
  have hlk := lookupEnum_after_generate st col cn tn
  conv_lhs => rw [generateEnumCached]
  rw [hlk]

theorem generateEnumCached_miss (st : GqlState) (col : Column) (cn tn : String)
    (h : lookupEnum st.enumMap col.refId = none) :
    generateEnumCached st col cn tn
      = (GqlState.mk
          (st.enumMap ++ [(col.refId,
            EnumTypeObj.mk st.nextAlloc (capitalize tn ++ capitalize cn ++ "Enum")
              (fromEntries (enumEntriesOf (col.enumValues.getD []))))])
          (st.nextAlloc + 1),
         EnumTypeObj.mk st.nextAlloc (capitalize tn ++ capitalize cn ++ "Enum")
          (fromEntries (enumEntriesOf (col.enumValues.getD [])))) := by
  unfold generateEnumCached
  rw [h]

theorem core_string_enum (st : GqlState) (col : Column) (cn tn : String)
    (inp : Bool) (es : List String) (hdt : col.dataType = "string")
    (hev : col.enumValues = some es) (hne : es ≠ []) :
    columnToGraphQLCore st col cn tn inp
      = .ok ((generateEnumCached st col cn tn).1,
          ⟨.enumT (generateEnumCached st col cn tn).2, none⟩) := by
  cases col with
  | mk r dt ct ev nn hd df bc =>
    simp only [Column.dataType] at hdt
    simp only [Column.enumValues] at hev
    subst hdt
    subst hev
    have hemp : ((some es).getD []).isEmpty = false := by
      cases es with
      | nil => exact absurd rfl hne
      | cons a as => rfl
    unfold columnToGraphQLCore
    rw [if_neg (by decide), if_neg (by decide), if_neg (by decide), if_pos rfl, hemp]
    simp only [Bool.false_eq_true, if_false]

/-- C3: converting a string column with a non-empty enum-value set twice (the
second conversion starting from the state the first left behind) yields one
and the same enum type object — the cached instance, same `allocId` — and
leaves the cache untouched. -/
theorem enum_mapping_identity (st : GqlState) (col : Column) (cn tn : String)
    (inp : Bool) (es : List String) (hdt : col.dataType = "string")
    (hev : col.enumValues = some es) (hne : es ≠ [])
    (st1 : GqlState) (td1 : ConvertedColumn)
    (h1 : columnToGraphQLCore st col cn tn inp = .ok (st1, td1)) :
    ∃ e : EnumTypeObj, td1.type = .enumT e
      ∧ columnToGraphQLCore st1 col cn tn inp = .ok (st1, ⟨.enumT e, none⟩) := by
  rw [core_string_enum st col cn tn inp es hdt hev hne] at h1
  rw [Except.ok.injEq, Prod.mk.injEq] at h1
  obtain ⟨hst1, htd1⟩ := h1
  subst hst1
  subst htd1
  refine ⟨(generateEnumCached st col cn tn).2, rfl, ?_⟩
  rw [core_string_enum (generateEnumCached st col cn tn).1 col cn tn inp es hdt hev hne,
    generateEnumCached_idem]

/-- Witness for C3: converting `reaction.type` twice from the empty state
returns the same `ReactionTypeEnum` object both times. -/
theorem enum_mapping_identity_witness :
    ∃ e : EnumTypeObj,
      (ConvertedColumn.mk (.enumT ⟨0, "ReactionTypeEnum",
          [("LIKE", ⟨"LIKE", "Value: LIKE"⟩),
           ("DISLIKE", ⟨"DISLIKE", "Value: DISLIKE"⟩)]⟩) none).type = .enumT e
      ∧ columnToGraphQLCore
          ⟨[(2, ⟨0, "ReactionTypeEnum",
              [("LIKE", ⟨"LIKE", "Value: LIKE"⟩),
               ("DISLIKE", ⟨"DISLIKE", "Value: DISLIKE"⟩)]⟩)], 1⟩
          reactionTypeColumn "type" "reaction" false
        = .ok (⟨[(2, ⟨0, "ReactionTypeEnum",
              [("LIKE", ⟨"LIKE", "Value: LIKE"⟩),
               ("DISLIKE", ⟨"DISLIKE", "Value: DISLIKE"⟩)]⟩)], 1⟩,
            ⟨.enumT e, none⟩) :=
  enum_mapping_identity st0 reactionTypeColumn "type" "reaction" false
    ["LIKE", "DISLIKE"] rfl rfl (by decide)
    ⟨[(2, ⟨0, "ReactionTypeEnum",
        [("LIKE", ⟨"LIKE", "Value: LIKE"⟩),
         ("DISLIKE", ⟨"DISLIKE", "Value: DISLIKE"⟩)]⟩)], 1⟩
    ⟨.enumT ⟨0, "ReactionTypeEnum",
        [("LIKE", ⟨"LIKE", "Value: LIKE"⟩),
         ("DISLIKE", ⟨"DISLIKE", "Value: DISLIKE"⟩)]⟩, none⟩
    (by rfl)

/-- C10: the enum cache is keyed by the column object's identity, not by the
(table, column) name pair — two distinct column objects carrying the same
column name, table name and enum-value set (neither of them cached yet)
yield two DISTINCT enum type objects (different `allocId`s, i.e. different
`new GraphQLEnumType` allocations) bearing the same generated name. -/
theorem enum_cache_identity_keyed (st : GqlState) (col1 col2 : Column)
    (cn tn : String) (inp : Bool) (es : List String)
    (h1dt : col1.dataType = "string") (h2dt : col2.dataType = "string")
    (h1ev : col1.enumValues = some es) (h2ev : col2.enumValues = some es)
    (hne : es ≠ []) (hr : ¬ col1.refId = col2.refId)
    (hm1 : lookupEnum st.enumMap col1.refId = none)
    (hm2 : lookupEnum st.enumMap col2.refId = none)
    (st1 st2 : GqlState) (td1 td2 : ConvertedColumn)
    (hc1 : columnToGraphQLCore st col1 cn tn inp = .ok (st1, td1))
    (hc2 : columnToGraphQLCore st1 col2 cn tn inp = .ok (st2, td2)) :
    ∃ e1 e2 : EnumTypeObj, td1.type = .enumT e1 ∧ td2.type = .enumT e2
      ∧ ¬ e1.allocId = e2.allocId ∧ e1.name = e2.name := by
  rw [core_string_enum st col1 cn tn inp es h1dt h1ev hne] at hc1
  rw [Except.ok.injEq, Prod.mk.injEq] at hc1
  obtain ⟨hst1, htd1⟩ := hc1
  subst hst1
  subst htd1
  rw [core_string_enum (generateEnumCached st col1 cn tn).1 col2 cn tn inp es
    h2dt h2ev hne] at hc2
  rw [Except.ok.injEq, Prod.mk.injEq] at hc2
  obtain ⟨hst2, htd2⟩ := hc2
  subst hst2
  subst htd2
  have g1 := generateEnumCached_miss st col1 cn tn hm1
  have hm2' : lookupEnum (generateEnumCached st col1 cn tn).1.enumMap col2.refId
      = none := by
    rw [g1]
    exact (lookupEnum_append_ne st.enumMap col1.refId col2.refId _
      (fun hcc => hr hcc.symm)).trans hm2
  have g2 := generateEnumCached_miss (generateEnumCached st col1 cn tn).1 col2 cn tn hm2'
  refine ⟨(generateEnumCached st col1 cn tn).2,
    (generateEnumCached (generateEnumCached st col1 cn tn).1 col2 cn tn).2,
    rfl, rfl, ?_, ?_⟩
  · rw [g2, g1]
    simp
  · rw [g2, g1]

/-- Witness for C10: converting `reactionTypeColumn` and then the distinct
object `reactionTypeColumnB` (same names, same enum values) from the empty
state yields enum objects with allocation ids 0 and 1 and the same name. -/
theorem enum_cache_identity_keyed_witness :
    ∃ e1 e2 : EnumTypeObj,
      (ConvertedColumn.mk (.enumT ⟨0, "ReactionTypeEnum",
          [("LIKE", ⟨"LIKE", "Value: LIKE"⟩),
           ("DISLIKE", ⟨"DISLIKE", "Value: DISLIKE"⟩)]⟩) none).type = .enumT e1
      ∧ (ConvertedColumn.mk (.enumT ⟨1, "ReactionTypeEnum",
          [("LIKE", ⟨"LIKE", "Value: LIKE"⟩),
           ("DISLIKE", ⟨"DISLIKE", "Value: DISLIKE"⟩)]⟩) none).type = .enumT e2
      ∧ ¬ e1.allocId = e2.allocId ∧ e1.name = e2.name :=
  enum_cache_identity_keyed st0 reactionTypeColumn reactionTypeColumnB
    "type" "reaction" false ["LIKE", "DISLIKE"] rfl rfl rfl rfl (by decide)
    (by decide) rfl rfl
    ⟨[(2, ⟨0, "ReactionTypeEnum",
        [("LIKE", ⟨"LIKE", "Value: LIKE"⟩),
         ("DISLIKE", ⟨"DISLIKE", "Value: DISLIKE"⟩)]⟩)], 1⟩
    ⟨[(2, ⟨0, "ReactionTypeEnum",
        [("LIKE", ⟨"LIKE", "Value: LIKE"⟩),
         ("DISLIKE", ⟨"DISLIKE", "Value: DISLIKE"⟩)]⟩),
      (10, ⟨1, "ReactionTypeEnum",
        [("LIKE", ⟨"LIKE", "Value: LIKE"⟩),
         ("DISLIKE", ⟨"DISLIKE", "Value: DISLIKE"⟩)]⟩)], 2⟩
    ⟨.enumT ⟨0, "ReactionTypeEnum",
        [("LIKE", ⟨"LIKE", "Value: LIKE"⟩),
         ("DISLIKE", ⟨"DISLIKE", "Value: DISLIKE"⟩)]⟩, none⟩
    ⟨.enumT ⟨1, "ReactionTypeEnum",
        [("LIKE", ⟨"LIKE", "Value: LIKE"⟩),
         ("DISLIKE", ⟨"DISLIKE", "Value: DISLIKE"⟩)]⟩, none⟩
    (by rfl) (by rfl)

/-- Counterexample for C5: the enum values `["Option1", "!"]` are two
distinct literals; index 0 keeps its literal name `Option1` and index 1 (the
invalid literal `!`) receives the positional placeholder `Option1` — the two
collapse, and `Object.fromEntries` silently overwrites the first entry, so
the literal `Option1` is NOT represented in the synthesized enum. -/
theorem enum_collision_counterexample :
    collisionColumn.enumValues = some ["Option1", "!"]
    ∧ (enumEntriesOf ["Option1", "!"]).map (fun p => p.1) = ["Option1", "Option1"]
    ∧ ((generateEnumCached st0 collisionColumn "type" "reaction").2.values.map
        (fun p => p.2.value)) = ["!"]
    ∧ ((generateEnumCached st0 collisionColumn "type" "reaction").2.values.map
        (fun p => p.2.value)).contains "Option1" = false := by
  decide

/-- C5 amended: when two distinct literal enum values collapse to the same
placeholder name, the naming is still deterministic (purely positional), but
the later entry silently overwrites the earlier: the value stored under any
name in the synthesized enum is that of the LAST entry carrying the name, so
an earlier literal is dropped rather than remaining represented. -/
theorem enum_collision_last_wins (st : GqlState) (col : Column) (cn tn : String)
    (es : List String) (hev : col.enumValues = some es)
    (hm : lookupEnum st.enumMap col.refId = none) (k : String) :
    lookupVal (generateEnumCached st col cn tn).2.values k
      = ((enumEntriesOf es).reverse.find? (fun p => p.1 == k)).map (fun p => p.2) := by
  rw [generateEnumCached_miss st col cn tn hm]
  simp only [hev, Option.getD_some]
  exact lookupVal_fromEntries _ k

/-- Witness for C5: on `["Option1", "!"]` the name `Option1` ends up bound
to the later entry's underlying value `!`. -/
theorem enum_collision_last_wins_witness :
    lookupVal (generateEnumCached st0 collisionColumn "type" "reaction").2.values
      "Option1" = some ⟨"!", "Value: !"⟩ := by
  rw [enum_collision_last_wins st0 collisionColumn "type" "reaction"
    ["Option1", "!"] rfl rfl "Option1"]
  decide

/-- Counterexample for C6: the empty string consists only of allowed
characters (vacuously — it has no character outside `[A-Za-z0-9_]`), yet the
regular expression `/^[a-zA-Z0-9_]+$/` rejects it (the `+` wants at least
one character), so its entry is named `Option0`, not by its literal. -/
theorem enum_empty_literal_counterexample :
    emptyEnumColumn.enumValues = some [""]
    ∧ "".data.all (fun c => c.isAlpha || c.isDigit || c == '_') = true
    ∧ (generateEnumCached st0 emptyEnumColumn "type" "reaction").2.values
        = [("Option0", ⟨"", "Value: "⟩)] := by
  decide

/-- C6 amended: the synthesized enum is named `<Table><Column>Enum`
(capitalized table then column name), and it is built by `Object.fromEntries`
from positional entries where entry `i` carries the literal `es[i]` as its
underlying value and is named by the literal exactly when the literal is
non-empty and made only of characters in `[A-Za-z0-9_]`, and by the
positional placeholder `Option<i>` otherwise (so an empty literal is also
placeholder-named). -/
theorem enum_naming_amended (st : GqlState) (col : Column) (cn tn : String)
    (es : List String) (hev : col.enumValues = some es)
    (hm : lookupEnum st.enumMap col.refId = none) :
    (generateEnumCached st col cn tn).2.name
        = capitalize tn ++ capitalize cn ++ "Enum"
    ∧ (generateEnumCached st col cn tn).2.values = fromEntries (enumEntriesOf es)
    ∧ (∀ (i : Nat) (e : String), es[i]? = some e →
        (enumEntriesOf es)[i]? = some
          ((if ¬ e = "" ∧ e.data.all (fun c => c.isAlpha || c.isDigit || c == '_') = true
            then e else "Option" ++ toString i),
           (⟨e, "Value: " ++ e⟩ : EnumValue))) := by
  refine ⟨?_, ?_, ?_⟩
  · rw [generateEnumCached_miss st col cn tn hm]
  · rw [generateEnumCached_miss st col cn tn hm]
    simp [hev]
  · intro i e he
    unfold enumEntriesOf
    rw [jsMapIdx_getElem?, he]
    rw [Option.map_some']
    obtain ⟨ld⟩ := e
    by_cases hA : allowedNameCharsTest (String.mk ld) = true
    · rw [if_pos hA, if_pos]
      unfold allowedNameCharsTest at hA
      rw [Bool.and_eq_true] at hA
      obtain ⟨h1, h2⟩ := hA
      refine ⟨?_, h2⟩
      intro hcc
      have hld : ld = [] := by
        have hdd := congrArg String.data hcc
        simpa using hdd
      subst hld
      simp at h1
    · rw [if_neg hA, if_neg]
      intro hcontra
      obtain ⟨hne, hall⟩ := hcontra
      apply hA
      unfold allowedNameCharsTest
      rw [Bool.and_eq_true]
      refine ⟨?_, hall⟩
      cases ld with
      | nil => exact absurd rfl hne
      | cons c cs => rfl

/-- Witness for C6 (amended): `post.status` with values
`["active", "in-progress"]` synthesizes `PostStatusEnum`; the dash-bearing
literal at index 1 is entered under the placeholder name `Option1` with its
literal preserved as the underlying value. -/
theorem enum_naming_amended_witness :
    (generateEnumCached st0 statusColumn "status" "post").2.name = "PostStatusEnum"
    ∧ (enumEntriesOf ["active", "in-progress"])[1]?
        = some ("Option1", ⟨"in-progress", "Value: in-progress"⟩) := by
  have h := enum_naming_amended st0 statusColumn "status" "post"
    ["active", "in-progress"] rfl rfl
  constructor
  · rw [h.1]
    decide
  · have h2 := h.2.2 1 "in-progress" rfl
    rw [h2]
    decide

/-- C8: serialization through the generic JSON scalar never raises — every
input yields an `.ok` result: a string on which `JSON.parse` succeeds yields
the parsed structure, a string on which it fails (the caught exception)
yields the raw string back, and an already-structured object value passes
through unchanged. -/
theorem json_scalar_serialize_total (jsonParse : String → Option JsValue)
    (v : JsValue) :
    (∃ r, jsonScalarSerialize jsonParse v = .ok r)
    ∧ (∀ s j, v = .vstr s → jsonParse s = some j →
        jsonScalarSerialize jsonParse v = .ok j)
    ∧ (∀ s, v = .vstr s → jsonParse s = none →
        jsonScalarSerialize jsonParse v = .ok (.vstr s))
    ∧ (∀ fields, v = .vobj fields →
        jsonScalarSerialize jsonParse v = .ok (.vobj fields)) := by
  refine ⟨?_, ?_, ?_, ?_⟩
  · cases v with
    | vstr s =>
      cases hp : jsonParse s with
      | some j => exact ⟨j, by simp [jsonScalarSerialize, hp]⟩
      | none => exact ⟨.vstr s, by simp [jsonScalarSerialize, hp]⟩
    | vnull => exact ⟨_, rfl⟩
    | vbool b => exact ⟨_, rfl⟩
    | vnum n => exact ⟨_, rfl⟩
    | varr es => exact ⟨_, rfl⟩
    | vobj fs => exact ⟨_, rfl⟩
  · rintro s j rfl hp
    simp [jsonScalarSerialize, hp]
  · rintro s rfl hp
    simp [jsonScalarSerialize, hp]
  · rintro fields rfl
    rfl

/-- Witness for C8: a malformed stored string serializes to the raw string
itself (no error), and a structured value passes through unchanged. -/
theorem json_scalar_serialize_total_witness :
    jsonScalarSerialize (fun _ => none) (.vstr "not valid json")
        = .ok (.vstr "not valid json")
    ∧ jsonScalarSerialize (fun _ => none) (.vobj [("a", .vnum 1)])
        = .ok (.vobj [("a", .vnum 1)]) := by
  constructor
  · exact (json_scalar_serialize_total (fun _ => none)
      (.vstr "not valid json")).2.2.1 "not valid json" rfl rfl
  · exact (json_scalar_serialize_total (fun _ => none)
      (.vobj [("a", .vnum 1)])).2.2.2 [("a", .vnum 1)] rfl
